import Mathlib

/-!
Verification of the grvt-farmer trading bot (`trading_script.py`).

The embedding models the decision engine of the bot over real numbers:
the order-book imbalance estimator, the rolling mid-price window used by
the volatility estimator, the quote filter pipeline with its three gates
(spread, imbalance, volatility), the bracket pricer, the dual order
submission, and the scheduling loop with its attempt counter.

External effects (order-book fetch, open-order fetch, order submission)
are modelled as explicit inputs: each fallible call is an `Except Unit`
value, and the submissions actually attempted in a cycle are recorded as
an event trace.
-/

namespace GrvtFarmer

/-- One order-book level, a `(price, size)` pair as parsed by the script. -/
structure Level where
  price : ℝ
  size : ℝ

instance : Inhabited Level := ⟨⟨0, 0⟩⟩

/-- `compute_orderbook_imbalance(bids, asks, depth)` from the script:
sums `size` over the first `depth` entries of each side and returns
`0.5` when the total volume is zero, else `bid_vol / (bid_vol + ask_vol)`.
The script always calls it with the default `depth = 5`. -/
noncomputable def compute_orderbook_imbalance (bids asks : List Level) (depth : ℕ) : ℝ :=
  let bid_vol := ((bids.take depth).map Level.size).sum
  let ask_vol := ((asks.take depth).map Level.size).sum
  if bid_vol + ask_vol = 0 then 0.5 else bid_vol / (bid_vol + ask_vol)

/-- `price_window.append(mid)` on the `deque(maxlen=50)`: append on the
right, evicting from the left whatever exceeds the capacity of 50. -/
def windowAppend (w : List ℝ) (x : ℝ) : List ℝ :=
  (w ++ [x]).drop ((w ++ [x]).length - 50)

/-- `np.diff(np.log(w))`: consecutive log-returns of the window. -/
noncomputable def log_returns (w : List ℝ) : List ℝ :=
  (w.zip w.tail).map fun p => Real.log p.2 - Real.log p.1

/-- `np.mean(xs)`. -/
noncomputable def np_mean (xs : List ℝ) : ℝ := xs.sum / xs.length

/-- `np.std(xs)` with numpy's default `ddof = 0`: the square root of the
mean of the squared deviations, divisor `n`. -/
noncomputable def np_std (xs : List ℝ) : ℝ :=
  Real.sqrt ((xs.map fun x => (x - np_mean xs) ^ 2).sum / xs.length)

/-- Modelled from the spec's words only (for comparison with `np_std`,
which is what the code computes): the sample standard deviation of `xs`,
with Bessel's correction, divisor `n - 1`. -/
noncomputable def sample_std (xs : List ℝ) : ℝ :=
  Real.sqrt ((xs.map fun x => (x - np_mean xs) ^ 2).sum / ((xs.length : ℝ) - 1))

/-- The immutable filter configuration loaded once at startup. -/
structure FilterConfig where
  offset : ℝ
  min_spread : ℝ
  max_spread : ℝ
  obi_tolerance : ℝ
  max_volatility : ℝ

/-- The reason printed by the script when a gate skips the cycle. -/
inductive SkipReason where
  | spreadOutOfRange
  | orderbookImbalanced
  | volatilityTooHigh
deriving DecidableEq

/-- Outcome of one call to `place_bracket_limit_orders`: either an
exception (`raised...`), a filter skip (`return None`), or a successful
dual placement carrying both order identifiers and prices. -/
inductive PlaceResult where
  | raisedMissingBook
  | skip (reason : SkipReason)
  | raisedInvalidPrice (buyPrice sellPrice : ℝ)
  | raisedBuyFailed
  | raisedSellFailed (buyId : ℕ)
  | placed (buyId : ℕ) (buyPrice : ℝ) (sellId : ℕ) (sellPrice : ℝ)

/-- An order submission actually sent to the exchange. -/
inductive Event where
  | submitBuy (price : ℝ)
  | submitSell (price : ℝ)

open Classical

/-- Lines 89-93 of the script: `buy_price = best_ask - offset`,
`sell_price = best_bid + offset`, raising `ValueError` when either is
non-positive. -/
noncomputable def bracket_prices (best_bid best_ask offset : ℝ) : Except Unit (ℝ × ℝ) :=
  let buy_price := best_ask - offset
  let sell_price := best_bid + offset
  if buy_price ≤ 0 ∨ sell_price ≤ 0 then Except.error () else Except.ok (buy_price, sell_price)

/-- `place_bracket_limit_orders` from the script, given the fetched book
sides, the exchange's responses to the two submissions, and the current
rolling window. Returns the outcome, the rolling window after the call,
and the trace of submissions attempted. -/
noncomputable def place_bracket_limit_orders (cfg : FilterConfig)
    (bids asks : List Level) (buyResp sellResp : Except Unit ℕ)
    (w : List ℝ) : PlaceResult × List ℝ × List Event :=
  if asks = [] ∨ bids = [] then (.raisedMissingBook, w, [])
  else
    let best_ask := asks.headI.price
    let best_bid := bids.headI.price
    let spread := best_ask - best_bid
    let mid := (best_ask + best_bid) / 2
    if ¬ (cfg.min_spread ≤ spread ∧ spread ≤ cfg.max_spread) then
      (.skip .spreadOutOfRange, w, [])
    else
      let obi := compute_orderbook_imbalance bids asks 5
      if obi < 0.5 - cfg.obi_tolerance ∨ 0.5 + cfg.obi_tolerance < obi then
        (.skip .orderbookImbalanced, w, [])
      else
        let w' := windowAppend w mid
        if 10 ≤ w'.length ∧ cfg.max_volatility < np_std (log_returns w') then
          (.skip .volatilityTooHigh, w', [])
        else
          match bracket_prices best_bid best_ask cfg.offset with
          | .error _ => (.raisedInvalidPrice (best_ask - cfg.offset) (best_bid + cfg.offset), w', [])
          | .ok (buy_price, sell_price) =>
            match buyResp with
            | .error _ => (.raisedBuyFailed, w', [.submitBuy buy_price])
            | .ok buy_id =>
              match sellResp with
              | .error _ =>
                (.raisedSellFailed buy_id, w', [.submitBuy buy_price, .submitSell sell_price])
              | .ok sell_id =>
                (.placed buy_id buy_price sell_id sell_price, w',
                  [.submitBuy buy_price, .submitSell sell_price])

/-- `proceeded r` holds when the filter pipeline let the cycle through to
the pricing/placement stage (the decision was not a skip and the book was
usable). -/
def proceeded : PlaceResult → Prop
  | .raisedMissingBook => False
  | .skip _ => False
  | _ => True

/-- The external inputs consumed by one iteration of the `main` loop:
the open-orders fetch (which may raise), the fetched book sides, and the
exchange's responses to the two possible submissions. -/
structure CycleInput where
  openOrders : Except Unit (List ℕ)
  bids : List Level
  asks : List Level
  buyResp : Except Unit ℕ
  sellResp : Except Unit ℕ

/-- The mutable state of the `main` loop: the attempt counter and the
module-level rolling price window. -/
structure LoopState where
  attempt : ℕ
  window : List ℝ

/-- One iteration of the `while` body in `main`: skip when open orders
exist, otherwise run `place_bracket_limit_orders`; any raised exception is
caught and ignored; only a truthy result increments `attempt`. Returns the
new state and the submissions sent during the iteration. -/
noncomputable def loopCycle (cfg : FilterConfig) (inp : CycleInput)
    (s : LoopState) : LoopState × List Event :=
  match inp.openOrders with
  | .error _ => (s, [])
  | .ok orders =>
    if orders = [] then
      let r := place_bracket_limit_orders cfg inp.bids inp.asks inp.buyResp inp.sellResp s.window
      match r.1 with
      | .placed _ _ _ _ => (⟨s.attempt + 1, r.2.1⟩, r.2.2)
      | _ => (⟨s.attempt, r.2.1⟩, r.2.2)
    else (s, [])

/-- The `while attempt < MAX_ATTEMPTS` loop of `main`, run against a
finite prefix of cycle inputs: each input is consumed only while the
attempt counter is below the maximum. -/
noncomputable def loopRun (cfg : FilterConfig) (maxAttempts : ℕ) :
    List CycleInput → LoopState → LoopState
  | [], s => s
  | inp :: rest, s =>
    if s.attempt < maxAttempts then loopRun cfg maxAttempts rest (loopCycle cfg inp s).1
    else s

/-! Helper lemmas -/

/-- The appended element always survives the capacity eviction, which only
drops from the left. -/
lemma mem_windowAppend (w : List ℝ) (x : ℝ) : x ∈ windowAppend w x := by
  unfold windowAppend
  rw [List.drop_append_of_le_length (by simp)]
  simp

/-- Claim C4: `compute_orderbook_imbalance` maps into `[0,1]`, returns
exactly `0.5` when both top-5 volumes vanish, and otherwise returns
`bid_vol / (bid_vol + ask_vol)`; only sizes of entries enter, so it is a
pure function of its arguments. -/
theorem C4_imbalance_range_and_values (bids asks : List Level)
    (hb : ∀ l ∈ bids, 0 ≤ l.size) (ha : ∀ l ∈ asks, 0 ≤ l.size) :
    (0 ≤ compute_orderbook_imbalance bids asks 5 ∧
      compute_orderbook_imbalance bids asks 5 ≤ 1) ∧
    (((bids.take 5).map Level.size).sum = 0 ∧ ((asks.take 5).map Level.size).sum = 0 →
      compute_orderbook_imbalance bids asks 5 = 0.5) ∧
    (¬ (((bids.take 5).map Level.size).sum = 0 ∧ ((asks.take 5).map Level.size).sum = 0) →
      compute_orderbook_imbalance bids asks 5 =
        ((bids.take 5).map Level.size).sum /
          (((bids.take 5).map Level.size).sum + ((asks.take 5).map Level.size).sum)) := by
  have hbv : 0 ≤ ((bids.take 5).map Level.size).sum := by
    apply List.sum_nonneg
    intro x hx
    obtain ⟨l, hl, rfl⟩ := List.mem_map.mp hx
    exact hb l (List.mem_of_mem_take hl)
  have hav : 0 ≤ ((asks.take 5).map Level.size).sum := by
    apply List.sum_nonneg
    intro x hx
    obtain ⟨l, hl, rfl⟩ := List.mem_map.mp hx
    exact ha l (List.mem_of_mem_take hl)
  simp only [compute_orderbook_imbalance]
  by_cases h : ((bids.take 5).map Level.size).sum + ((asks.take 5).map Level.size).sum = 0
  · rw [if_pos h]
    have hb0 : ((bids.take 5).map Level.size).sum = 0 := by linarith
    have ha0 : ((asks.take 5).map Level.size).sum = 0 := by linarith
    exact ⟨⟨by norm_num, by norm_num⟩, fun _ => rfl, fun hc => absurd ⟨hb0, ha0⟩ hc⟩
  · rw [if_neg h]
    have hpos : 0 < ((bids.take 5).map Level.size).sum + ((asks.take 5).map Level.size).sum :=
      lt_of_le_of_ne (by linarith) (Ne.symm h)
    refine ⟨⟨div_nonneg hbv (le_of_lt hpos), ?_⟩, fun hz => absurd (by linarith [hz.1, hz.2]) h,
      fun _ => rfl⟩
    rw [div_le_one hpos]
    linarith

/-- Witness for C4 at a concrete book. -/
theorem C4_witness :
    0 ≤ compute_orderbook_imbalance [⟨100, 2⟩] [⟨101, 1⟩] 5 ∧
      compute_orderbook_imbalance [⟨100, 2⟩] [⟨101, 1⟩] 5 ≤ 1 := by
  have h := C4_imbalance_range_and_values [⟨100, 2⟩] [⟨101, 1⟩]
    (by intro l hl; simp at hl; rw [hl]; norm_num)
    (by intro l hl; simp at hl; rw [hl]; norm_num)
  exact h.1

/-- Claim C6: the pricer computes `buy = best_ask - offset`,
`sell = best_bid + offset`, fails exactly when one of them is
non-positive (in particular whenever `offset ≥ best_ask`), and returns
only positive prices on the success path. -/
theorem C6_bracket_pricer (best_bid best_ask offset : ℝ) :
    (bracket_prices best_bid best_ask offset = .error () ↔
      best_ask - offset ≤ 0 ∨ best_bid + offset ≤ 0) ∧
    (best_ask ≤ offset → bracket_prices best_bid best_ask offset = .error ()) ∧
    (∀ b s, bracket_prices best_bid best_ask offset = .ok (b, s) →
      b = best_ask - offset ∧ s = best_bid + offset ∧ 0 < b ∧ 0 < s) := by
  refine ⟨?_, ?_, ?_⟩
  · simp only [bracket_prices]
    split_ifs with h
    · simpa using h
    · simpa using h
  · intro hao
    simp only [bracket_prices]
    rw [if_pos (Or.inl (by linarith))]
  · intro b s hok
    simp only [bracket_prices] at hok
    split_ifs at hok with h
    push_neg at h
    simp only [Except.ok.injEq, Prod.mk.injEq] at hok
    obtain ⟨h1, h2⟩ := hok
    subst h1
    subst h2
    exact ⟨rfl, rfl, h.1, h.2⟩

/-- Witness for C6 at concrete prices. -/
theorem C6_witness :
    bracket_prices 100 101 150 = .error () ∧
      (∀ b s, bracket_prices 100 101 0.5 = .ok (b, s) →
        b = 101 - 0.5 ∧ s = 100 + 0.5 ∧ 0 < b ∧ 0 < s) := by
  refine ⟨(C6_bracket_pricer 100 101 150).2.1 (by norm_num), ?_⟩
  intro b s hok
  exact (C6_bracket_pricer 100 101 0.5).2.2 b s hok

/-- Claim C5: the volatility gate never vetoes while the rolling window
holds fewer than 10 samples after the cycle's ingestion. -/
theorem C5_vol_gate_inactive_below_ten (cfg : FilterConfig) (bids asks : List Level)
    (buyResp sellResp : Except Unit ℕ) (w : List ℝ)
    (h : (place_bracket_limit_orders cfg bids asks buyResp sellResp w).2.1.length < 10) :
    (place_bracket_limit_orders cfg bids asks buyResp sellResp w).1 ≠
      .skip .volatilityTooHigh := by
  simp only [place_bracket_limit_orders] at h ⊢
  split_ifs at h ⊢ with h1 h2 h3 h4
  · simp
  · simp
  · have h' : (windowAppend w ((asks.headI.price + bids.headI.price) / 2)).length < 10 := by
      simpa using h
    exact absurd h4.1 (by omega)
  · cases hpr : bracket_prices bids.headI.price asks.headI.price cfg.offset with
    | error e => simp [hpr]
    | ok pr =>
      obtain ⟨bp, sp⟩ := pr
      cases buyResp with
      | error e => simp [hpr]
      | ok bi =>
        cases sellResp with
        | error e => simp [hpr]
        | ok si => simp [hpr]
  · simp

/-- Witness for C5 at a concrete cycle whose post-ingestion window holds
one sample. -/
theorem C5_witness :
    (place_bracket_limit_orders ⟨0.5, 0.5, 50, 0.2, 0.002⟩ [⟨100, 1⟩] [⟨101, 1⟩]
      (.ok 1) (.ok 2) []).1 ≠ .skip .volatilityTooHigh := by
  apply C5_vol_gate_inactive_below_ten
  norm_num [place_bracket_limit_orders, compute_orderbook_imbalance, windowAppend,
    bracket_prices, List.headI]

/-- Claim C1: for every usable snapshot and configuration the gates run
in the fixed order spread, imbalance, volatility and short-circuit on the
first failure: a spread violation skips with reason `spreadOutOfRange`
whatever the book depths and the window hold (so the later gates are
never consulted) and leaves the window untouched; a spread pass with an
imbalance violation skips with reason `orderbookImbalanced` whatever the
window holds, again leaving it untouched; and when all three gates pass
the cycle proceeds to pricing and placement. -/
theorem C1_gate_order_short_circuit (cfg : FilterConfig) (bids asks : List Level)
    (buyResp sellResp : Except Unit ℕ) (w : List ℝ) (ha : asks ≠ []) (hb : bids ≠ []) :
    (¬ (cfg.min_spread ≤ asks.headI.price - bids.headI.price ∧
        asks.headI.price - bids.headI.price ≤ cfg.max_spread) →
      place_bracket_limit_orders cfg bids asks buyResp sellResp w =
        (.skip .spreadOutOfRange, w, [])) ∧
    ((cfg.min_spread ≤ asks.headI.price - bids.headI.price ∧
        asks.headI.price - bids.headI.price ≤ cfg.max_spread) →
      (compute_orderbook_imbalance bids asks 5 < 0.5 - cfg.obi_tolerance ∨
        0.5 + cfg.obi_tolerance < compute_orderbook_imbalance bids asks 5) →
      place_bracket_limit_orders cfg bids asks buyResp sellResp w =
        (.skip .orderbookImbalanced, w, [])) ∧
    ((cfg.min_spread ≤ asks.headI.price - bids.headI.price ∧
        asks.headI.price - bids.headI.price ≤ cfg.max_spread) →
      ¬ (compute_orderbook_imbalance bids asks 5 < 0.5 - cfg.obi_tolerance ∨
        0.5 + cfg.obi_tolerance < compute_orderbook_imbalance bids asks 5) →
      ¬ (10 ≤ (windowAppend w ((asks.headI.price + bids.headI.price) / 2)).length ∧
          cfg.max_volatility <
            np_std (log_returns (windowAppend w ((asks.headI.price + bids.headI.price) / 2)))) →
      proceeded (place_bracket_limit_orders cfg bids asks buyResp sellResp w).1) := by
  have hne : ¬ (asks = [] ∨ bids = []) := by
    intro hc
    rcases hc with hc | hc
    · exact ha hc
    · exact hb hc
  refine ⟨?_, ?_, ?_⟩
  · intro hs
    simp only [place_bracket_limit_orders]
    rw [if_neg hne, if_pos hs]
  · intro hs ho
    simp only [place_bracket_limit_orders]
    rw [if_neg hne, if_neg (not_not_intro hs), if_pos ho]
  · intro hs ho hv
    simp only [place_bracket_limit_orders]
    rw [if_neg hne, if_neg (not_not_intro hs), if_neg ho, if_neg hv]
    cases hpr : bracket_prices bids.headI.price asks.headI.price cfg.offset with
    | error e => simp [hpr, proceeded]
    | ok pr =>
      obtain ⟨bp, sp⟩ := pr
      cases buyResp with
      | error e => simp [hpr, proceeded]
      | ok bi =>
        cases sellResp with
        | error e => simp [hpr, proceeded]
        | ok si => simp [hpr, proceeded]

/-- Witness for C1: a concrete snapshot whose spread (0.2) violates the
configured range, so the pipeline skips with the spread reason. -/
theorem C1_witness :
    place_bracket_limit_orders ⟨0.5, 0.5, 50, 0.2, 0.002⟩ [⟨100, 1⟩] [⟨100.2, 1⟩]
      (.ok 1) (.ok 2) [] = (.skip .spreadOutOfRange, [], []) := by
  apply (C1_gate_order_short_circuit ⟨0.5, 0.5, 50, 0.2, 0.002⟩ [⟨100, 1⟩] [⟨100.2, 1⟩]
    (.ok 1) (.ok 2) [] (by simp) (by simp)).1
  norm_num [List.headI]

/-- Counterexample to claim C2: a usable snapshot (both sides non-empty)
whose spread fails the spread gate; the cycle ends in a skip and the
rolling window is left empty, i.e. the mid-price was never appended. -/
theorem C2_counterexample :
    ([(⟨100.2, 1⟩ : Level)] ≠ []) ∧ ([(⟨100, 1⟩ : Level)] ≠ []) ∧
    (place_bracket_limit_orders ⟨0.5, 0.5, 50, 0.2, 0.002⟩ [⟨100, 1⟩] [⟨100.2, 1⟩]
      (.ok 1) (.ok 2) []).2.1 = [] := by
  refine ⟨by simp, by simp, ?_⟩
  simp only [place_bracket_limit_orders]
  rw [if_neg (by simp), if_pos (by norm_num [List.headI])]

/-- Claim C2 as amended: the mid-price is appended to the rolling window
exactly on the cycles that pass the spread and imbalance gates; on those
cycles the window grows by one sample (subject to capacity eviction)
regardless of the later volatility gate, the pricer, or the submissions. -/
theorem C2_amended_window_append (cfg : FilterConfig) (bids asks : List Level)
    (buyResp sellResp : Except Unit ℕ) (w : List ℝ) (ha : asks ≠ []) (hb : bids ≠ [])
    (hs : cfg.min_spread ≤ asks.headI.price - bids.headI.price ∧
      asks.headI.price - bids.headI.price ≤ cfg.max_spread)
    (ho : ¬ (compute_orderbook_imbalance bids asks 5 < 0.5 - cfg.obi_tolerance ∨
      0.5 + cfg.obi_tolerance < compute_orderbook_imbalance bids asks 5)) :
    (place_bracket_limit_orders cfg bids asks buyResp sellResp w).2.1 =
      windowAppend w ((asks.headI.price + bids.headI.price) / 2) := by
  have hne : ¬ (asks = [] ∨ bids = []) := by
    intro hc
    rcases hc with hc | hc
    · exact ha hc
    · exact hb hc
  simp only [place_bracket_limit_orders]
  rw [if_neg hne, if_neg (not_not_intro hs), if_neg ho]
  split_ifs with hv
  · rfl
  · cases hpr : bracket_prices bids.headI.price asks.headI.price cfg.offset with
    | error e => simp [hpr]
    | ok pr =>
      obtain ⟨bp, sp⟩ := pr
      cases buyResp with
      | error e => simp [hpr]
      | ok bi =>
        cases sellResp with
        | error e => simp [hpr]
        | ok si => simp [hpr]

/-- Witness for the amended C2 at a concrete snapshot that passes the
spread and imbalance gates: the window receives the mid-price. -/
theorem C2_amended_witness :
    (place_bracket_limit_orders ⟨0.5, 0.5, 50, 0.2, 0.002⟩ [⟨100, 1⟩] [⟨101, 1⟩]
      (.ok 1) (.ok 2) []).2.1 = windowAppend [] ((101 + 100) / 2) := by
  have h := C2_amended_window_append ⟨0.5, 0.5, 50, 0.2, 0.002⟩ [⟨100, 1⟩] [⟨101, 1⟩]
    (.ok 1) (.ok 2) [] (by simp) (by simp)
    (by norm_num [List.headI]) (by norm_num [List.headI, compute_orderbook_imbalance])
  simpa [List.headI] using h

/-- Claim C10: a volatility veto happens only after the cycle has already
mutated the rolling window, which then contains the vetoed snapshot's
mid-price; a spread or imbalance skip leaves the window exactly as it
was. -/
theorem C10_skip_frame_effects (cfg : FilterConfig) (bids asks : List Level)
    (buyResp sellResp : Except Unit ℕ) (w : List ℝ) :
    ((place_bracket_limit_orders cfg bids asks buyResp sellResp w).1 =
        .skip .volatilityTooHigh →
      (place_bracket_limit_orders cfg bids asks buyResp sellResp w).2.1 =
        windowAppend w ((asks.headI.price + bids.headI.price) / 2) ∧
      (asks.headI.price + bids.headI.price) / 2 ∈
        (place_bracket_limit_orders cfg bids asks buyResp sellResp w).2.1) ∧
    (((place_bracket_limit_orders cfg bids asks buyResp sellResp w).1 =
        .skip .spreadOutOfRange ∨
      (place_bracket_limit_orders cfg bids asks buyResp sellResp w).1 =
        .skip .orderbookImbalanced) →
      (place_bracket_limit_orders cfg bids asks buyResp sellResp w).2.1 = w) := by
  simp only [place_bracket_limit_orders]
  split_ifs with h1 h2 h3 h4
  · simp
  · simp
  · exact ⟨fun _ => ⟨rfl, mem_windowAppend _ _⟩, by simp⟩
  · cases hpr : bracket_prices bids.headI.price asks.headI.price cfg.offset with
    | error e => simp [hpr]
    | ok pr =>
      obtain ⟨bp, sp⟩ := pr
      cases buyResp with
      | error e => simp [hpr]
      | ok bi =>
        cases sellResp with
        | error e => simp [hpr]
        | ok si => simp [hpr]
  · simp

/-! Concrete volatility computations

A nine-sample window with one price move from 1 to 2 followed by flat
prices, and the ten-sample window obtained by ingesting one more flat
mid-price. The log-returns of the ten-sample window are `[log 2, 0 × 8]`,
whose population standard deviation (`np.std`, divisor 9) and sample
standard deviation (divisor 8) differ. -/

/-- Nine mid-prices already in the rolling window. -/
def w9 : List ℝ := [1, 2, 2, 2, 2, 2, 2, 2, 2]

/-- The window after ingesting a tenth mid-price of 2. -/
def w10 : List ℝ := [1, 2, 2, 2, 2, 2, 2, 2, 2, 2]

lemma log_returns_w10 :
    log_returns w10 = [Real.log 2, 0, 0, 0, 0, 0, 0, 0, 0] := by
  simp [log_returns, w10, Real.log_one]

lemma np_std_w10 : np_std (log_returns w10) = Real.sqrt (8 * Real.log 2 ^ 2 / 81) := by
  rw [log_returns_w10]
  unfold np_std np_mean
  congr 1
  norm_num
  ring

lemma sample_std_w10 : sample_std (log_returns w10) = Real.sqrt (Real.log 2 ^ 2 / 9) := by
  rw [log_returns_w10]
  unfold sample_std np_mean
  congr 1
  norm_num
  ring

lemma np_std_w10_le : np_std (log_returns w10) ≤ 0.22 := by
  rw [np_std_w10]
  have h1 : (8 * Real.log 2 ^ 2 / 81 : ℝ) ≤ 0.0484 := by
    nlinarith [Real.log_two_lt_d9, Real.log_two_gt_d9]
  calc Real.sqrt (8 * Real.log 2 ^ 2 / 81) ≤ Real.sqrt 0.0484 := Real.sqrt_le_sqrt h1
    _ = 0.22 := by
        rw [show (0.0484 : ℝ) = 0.22 ^ 2 by norm_num, Real.sqrt_sq (by norm_num)]

lemma sample_std_w10_gt : 0.22 < sample_std (log_returns w10) := by
  rw [sample_std_w10]
  rw [show (Real.log 2 ^ 2 / 9 : ℝ) = (Real.log 2 / 3) ^ 2 by ring,
    Real.sqrt_sq (by positivity)]
  nlinarith [Real.log_two_gt_d9]

lemma np_std_w10_pos : 0 < np_std (log_returns w10) := by
  rw [np_std_w10]
  apply Real.sqrt_pos.mpr
  have h := Real.log_two_gt_d9
  nlinarith

/-- Configuration used for the volatility scenarios: offset 0.5, spread
range `[0.1, 1]`, OBI tolerance 0.2, volatility ceiling 0.22. -/
def cfg3 : FilterConfig := ⟨0.5, 0.1, 1, 0.2, 0.22⟩

/-- Same configuration with a volatility ceiling of 0, so any nonzero
realized volatility vetoes. -/
def cfg10 : FilterConfig := ⟨0.5, 0.1, 1, 0.2, 0⟩

/-- One-level book sides with best bid 1.9 and best ask 2.1 (mid 2). -/
def bids3 : List Level := [⟨1.9, 1⟩]

/-- See `bids3`. -/
def asks3 : List Level := [⟨2.1, 1⟩]

lemma mid3 : (asks3.headI.price + bids3.headI.price) / 2 = 2 := by
  norm_num [asks3, bids3, List.headI]

lemma windowAppend_w9 : windowAppend w9 ((asks3.headI.price + bids3.headI.price) / 2) = w10 := by
  rw [mid3]
  norm_num [windowAppend, w9, w10]

lemma place_cfg3_eval :
    place_bracket_limit_orders cfg3 bids3 asks3 (.ok 1) (.ok 2) w9 =
      (.placed 1 1.6 2 2.4, w10, [.submitBuy 1.6, .submitSell 2.4]) := by
  have hvol : ¬ ((11 / 50 : ℝ) <
      np_std (log_returns ([1, 2, 2, 2, 2, 2, 2, 2, 2, 2] : List ℝ))) := by
    rw [show (11 / 50 : ℝ) = 0.22 by norm_num]
    exact not_lt.mpr np_std_w10_le
  norm_num [place_bracket_limit_orders, cfg3, bids3, asks3, List.headI,
    compute_orderbook_imbalance, windowAppend, w9, w10, bracket_prices, hvol]

lemma place_cfg10_fst :
    (place_bracket_limit_orders cfg10 bids3 asks3 (.ok 1) (.ok 2) w9).1 =
      .skip .volatilityTooHigh := by
  have hvol : (0 : ℝ) <
      np_std (log_returns ([1, 2, 2, 2, 2, 2, 2, 2, 2, 2] : List ℝ)) :=
    np_std_w10_pos
  norm_num [place_bracket_limit_orders, cfg10, bids3, asks3, List.headI,
    compute_orderbook_imbalance, windowAppend, w9, hvol]

/-- Witness for C10: with a zero volatility ceiling the concrete cycle is
vetoed by the volatility gate, yet its window already contains the
snapshot's mid-price. -/
theorem C10_witness :
    (place_bracket_limit_orders cfg10 bids3 asks3 (.ok 1) (.ok 2) w9).2.1 =
      windowAppend w9 ((asks3.headI.price + bids3.headI.price) / 2) ∧
    (asks3.headI.price + bids3.headI.price) / 2 ∈
      (place_bracket_limit_orders cfg10 bids3 asks3 (.ok 1) (.ok 2) w9).2.1 :=
  (C10_skip_frame_effects cfg10 bids3 asks3 (.ok 1) (.ok 2) w9).1 place_cfg10_fst

/-- Counterexample to claim C3: a cycle whose post-ingestion window
`w10` holds 10 samples and whose log-returns have sample standard
deviation (divisor `n-1`) above the ceiling `maxVolatility = 0.22`; had
the gate compared the sample standard deviation it would have vetoed,
but the code compares `np.std` (divisor `n`) and proceeds to place both
orders. -/
theorem C3_counterexample :
    (place_bracket_limit_orders cfg3 bids3 asks3 (.ok 1) (.ok 2) w9).1 =
      .placed 1 1.6 2 2.4 ∧
    cfg3.max_volatility = 0.22 ∧
    windowAppend w9 ((asks3.headI.price + bids3.headI.price) / 2) = w10 ∧
    10 ≤ w10.length ∧
    0.22 < sample_std (log_returns w10) := by
  refine ⟨?_, rfl, windowAppend_w9, by norm_num [w10], sample_std_w10_gt⟩
  rw [place_cfg3_eval]

/-- Claim C3 as amended: once the post-ingestion window holds at least 10
samples, the volatility gate fires exactly when the population standard
deviation (numpy's `np.std`, divisor `n`) of the log-returns over the
entire current window exceeds `maxVolatility` — the whole window, not a
recent sub-window, but the population rather than the sample standard
deviation. -/
theorem C3_amended_vol_is_population_std (cfg : FilterConfig) (bids asks : List Level)
    (buyResp sellResp : Except Unit ℕ) (w : List ℝ) (ha : asks ≠ []) (hb : bids ≠ [])
    (hs : cfg.min_spread ≤ asks.headI.price - bids.headI.price ∧
      asks.headI.price - bids.headI.price ≤ cfg.max_spread)
    (ho : ¬ (compute_orderbook_imbalance bids asks 5 < 0.5 - cfg.obi_tolerance ∨
      0.5 + cfg.obi_tolerance < compute_orderbook_imbalance bids asks 5))
    (hlen : 10 ≤ (windowAppend w ((asks.headI.price + bids.headI.price) / 2)).length) :
    (place_bracket_limit_orders cfg bids asks buyResp sellResp w).1 =
        .skip .volatilityTooHigh ↔
      cfg.max_volatility <
        np_std (log_returns (windowAppend w ((asks.headI.price + bids.headI.price) / 2))) := by
  have hne : ¬ (asks = [] ∨ bids = []) := by
    intro hc
    rcases hc with hc | hc
    · exact ha hc
    · exact hb hc
  simp only [place_bracket_limit_orders]
  rw [if_neg hne, if_neg (not_not_intro hs), if_neg ho]
  split_ifs with hv
  · simp [hv.2]
  · have hnv : ¬ cfg.max_volatility <
        np_std (log_returns (windowAppend w ((asks.headI.price + bids.headI.price) / 2))) :=
      fun hc => hv ⟨hlen, hc⟩
    cases hpr : bracket_prices bids.headI.price asks.headI.price cfg.offset with
    | error e => simp [hpr, hnv]
    | ok pr =>
      obtain ⟨bp, sp⟩ := pr
      cases buyResp with
      | error e => simp [hpr, hnv]
      | ok bi =>
        cases sellResp with
        | error e => simp [hpr, hnv]
        | ok si => simp [hpr, hnv]

/-- Witness for the amended C3: with a zero ceiling, the concrete window
`w10` has positive realized volatility, so the gate vetoes. -/
theorem C3_amended_witness :
    (place_bracket_limit_orders cfg10 bids3 asks3 (.ok 1) (.ok 2) w9).1 =
      .skip .volatilityTooHigh := by
  apply (C3_amended_vol_is_population_std cfg10 bids3 asks3 (.ok 1) (.ok 2) w9
    (by simp [asks3]) (by simp [bids3])
    (by norm_num [cfg10, asks3, bids3, List.headI])
    (by norm_num [cfg10, asks3, bids3, List.headI, compute_orderbook_imbalance])
    (by rw [windowAppend_w9]; norm_num [w10])).mpr
  rw [windowAppend_w9]
  exact np_std_w10_pos

/-- Claim C7: the orchestrator submits the buy leg strictly before the
sell leg. If the buy submission fails, no sell submission is ever
attempted and the failure is surfaced as `raisedBuyFailed` whenever any
submission was attempted at all; a `placed` result (the `BracketResult`)
arises only when both legs succeeded, and its trace is exactly the buy
submission followed by the sell submission. -/
theorem C7_buy_before_sell (cfg : FilterConfig) (bids asks : List Level)
    (buyResp sellResp : Except Unit ℕ) (w : List ℝ) :
    (buyResp = .error () →
      (∀ p, Event.submitSell p ∉
        (place_bracket_limit_orders cfg bids asks buyResp sellResp w).2.2) ∧
      ((place_bracket_limit_orders cfg bids asks buyResp sellResp w).2.2 ≠ [] →
        (place_bracket_limit_orders cfg bids asks buyResp sellResp w).1 =
          .raisedBuyFailed)) ∧
    (∀ bi bp si sp,
      (place_bracket_limit_orders cfg bids asks buyResp sellResp w).1 =
        .placed bi bp si sp →
      buyResp = .ok bi ∧ sellResp = .ok si ∧
      (place_bracket_limit_orders cfg bids asks buyResp sellResp w).2.2 =
        [.submitBuy bp, .submitSell sp]) := by
  simp only [place_bracket_limit_orders]
  split_ifs with h1 h2 h3 h4
  · simp
  · simp
  · simp
  · cases hpr : bracket_prices bids.headI.price asks.headI.price cfg.offset with
    | error e => simp [hpr]
    | ok pr =>
      obtain ⟨bp', sp'⟩ := pr
      cases buyResp with
      | error e => simp [hpr]
      | ok bi' =>
        cases sellResp with
        | error e => simp [hpr]
        | ok si' =>
          refine ⟨fun hbe => absurd hbe (by simp), ?_⟩
          intro bi bp si sp heq
          simp only [PlaceResult.placed.injEq] at heq
          obtain ⟨hb1, hb2, hb3, hb4⟩ := heq
          subst hb1
          subst hb2
          subst hb3
          subst hb4
          exact ⟨rfl, rfl, rfl⟩
  · simp

/-- Witness for C7: the concrete successful dual placement, whose result
carries both identifiers and whose trace is buy then sell. -/
theorem C7_witness :
    (Except.ok 1 : Except Unit ℕ) = .ok 1 ∧ (Except.ok 2 : Except Unit ℕ) = .ok 2 ∧
    (place_bracket_limit_orders cfg3 bids3 asks3 (.ok 1) (.ok 2) w9).2.2 =
      [.submitBuy 1.6, .submitSell 2.4] :=
  (C7_buy_before_sell cfg3 bids3 asks3 (.ok 1) (.ok 2) w9).2 1 1.6 2 2.4
    (by rw [place_cfg3_eval])

/-! Loop lemmas -/

/-- One loop iteration advances the attempt counter by at most one. -/
lemma loopCycle_attempt_le (cfg : FilterConfig) (inp : CycleInput) (s : LoopState) :
    (loopCycle cfg inp s).1.attempt ≤ s.attempt + 1 := by
  unfold loopCycle
  cases hoo : inp.openOrders with
  | error e => simp
  | ok orders =>
    dsimp only
    split_ifs with h
    · cases hres : (place_bracket_limit_orders cfg inp.bids inp.asks inp.buyResp
        inp.sellResp s.window).1 <;> simp [hres]
    · simp

/-- Claim C8: in the scheduling loop the attempt counter increments on a
cycle if and only if that cycle performed a successful dual placement;
cycles skipped for open orders, cycles skipped by a filter gate, and
cycles ending in a caught exception leave the counter (and, for the
open-orders and exception cases, the whole state) unchanged and submit
nothing; the loop refuses further cycles exactly once the counter has
reached `maxAttempts`, which it can never exceed. -/
theorem C8_attempt_counter (cfg : FilterConfig) (maxA : ℕ) :
    (∀ inp s l, inp.openOrders = .ok l → l ≠ [] → loopCycle cfg inp s = (s, [])) ∧
    (∀ inp s, inp.openOrders = .error () → loopCycle cfg inp s = (s, [])) ∧
    (∀ inp s, (loopCycle cfg inp s).1.attempt = s.attempt + 1 ↔
      (inp.openOrders = .ok [] ∧ ∃ bi bp si sp,
        (place_bracket_limit_orders cfg inp.bids inp.asks inp.buyResp inp.sellResp
          s.window).1 = .placed bi bp si sp)) ∧
    (∀ inps s, s.attempt = maxA → loopRun cfg maxA inps s = s) ∧
    (∀ inps s, s.attempt ≤ maxA → (loopRun cfg maxA inps s).attempt ≤ maxA) ∧
    (∀ inp inps s, s.attempt < maxA →
      loopRun cfg maxA (inp :: inps) s = loopRun cfg maxA inps (loopCycle cfg inp s).1) := by
  refine ⟨?_, ?_, ?_, ?_, ?_, ?_⟩
  · intro inp s l hoo hl
    unfold loopCycle
    rw [hoo]
    simp [hl]
  · intro inp s hoo
    unfold loopCycle
    rw [hoo]
  · intro inp s
    unfold loopCycle
    cases hoo : inp.openOrders with
    | error e => simp
    | ok orders =>
      dsimp only
      cases orders with
      | nil =>
        rw [if_pos rfl]
        cases hres : (place_bracket_limit_orders cfg inp.bids inp.asks inp.buyResp
          inp.sellResp s.window).1 <;> simp [hres]
      | cons o os =>
        rw [if_neg (by simp)]
        simp
  · intro inps s hs
    cases inps with
    | nil => rfl
    | cons inp rest =>
      unfold loopRun
      rw [if_neg (by omega)]
  · intro inps s
    induction inps generalizing s with
    | nil => exact fun h => h
    | cons inp rest ih =>
      intro h
      unfold loopRun
      split_ifs with hlt
      · exact ih _ (by have := loopCycle_attempt_le cfg inp s; omega)
      · exact h
  · intro inp inps s hlt
    rw [loopRun, if_pos hlt]

/-- A concrete cycle input in which one open order is reported. -/
def inpOpen : CycleInput := ⟨.ok [7], [], [], .ok 0, .ok 0⟩

/-- Witness for C8: an open-orders cycle leaves the state untouched and
submits nothing, and a loop whose counter already equals the maximum
consumes no input. -/
theorem C8_witness :
    loopCycle cfg3 inpOpen ⟨0, []⟩ = (⟨0, []⟩, []) ∧
    loopRun cfg3 5 [inpOpen] ⟨5, []⟩ = ⟨5, []⟩ :=
  ⟨(C8_attempt_counter cfg3 5).1 inpOpen ⟨0, []⟩ [7] rfl (by simp),
    (C8_attempt_counter cfg3 5).2.2.2.1 [inpOpen] ⟨5, []⟩ rfl⟩

/-- The rolling window never exceeds 50 entries after an append. -/
lemma windowAppend_length_le (w : List ℝ) (x : ℝ) : (windowAppend w x).length ≤ 50 := by
  unfold windowAppend
  rw [List.length_drop]
  omega

/-- A pipeline call keeps the rolling window within its capacity. -/
lemma place_window_length_le (cfg : FilterConfig) (bids asks : List Level)
    (buyResp sellResp : Except Unit ℕ) (w : List ℝ) (h : w.length ≤ 50) :
    ((place_bracket_limit_orders cfg bids asks buyResp sellResp w).2.1).length ≤ 50 := by
  simp only [place_bracket_limit_orders]
  split_ifs with h1 h2 h3 h4
  · exact h
  · exact h
  · exact windowAppend_length_le _ _
  · cases hpr : bracket_prices bids.headI.price asks.headI.price cfg.offset with
    | error e => simpa [hpr] using windowAppend_length_le w _
    | ok pr =>
      obtain ⟨bp, sp⟩ := pr
      cases buyResp with
      | error e => simpa [hpr] using windowAppend_length_le w _
      | ok bi =>
        cases sellResp with
        | error e => simpa [hpr] using windowAppend_length_le w _
        | ok si => simpa [hpr] using windowAppend_length_le w _
  · exact h

/-- One loop iteration keeps the rolling window within its capacity. -/
lemma loopCycle_window_le (cfg : FilterConfig) (inp : CycleInput) (s : LoopState)
    (h : s.window.length ≤ 50) : (loopCycle cfg inp s).1.window.length ≤ 50 := by
  unfold loopCycle
  cases hoo : inp.openOrders with
  | error e => simpa
  | ok orders =>
    dsimp only
    split_ifs with ho
    · cases hres : (place_bracket_limit_orders cfg inp.bids inp.asks inp.buyResp
        inp.sellResp s.window).1 <;>
        simpa [hres] using place_window_length_le cfg inp.bids inp.asks inp.buyResp
          inp.sellResp s.window h
    · simpa

/-- Claim C9: the rolling window never holds more than 50 entries — one
append stays within capacity, pipeline calls and whole loop runs preserve
the bound — and appending to a full 50-entry window evicts exactly the
oldest entry, preserving the order of the remaining 49. -/
theorem C9_window_capacity (cfg : FilterConfig) :
    (∀ w x, (windowAppend w x).length ≤ 50) ∧
    (∀ w x, w.length = 50 → windowAppend w x = w.tail ++ [x]) ∧
    (∀ bids asks buyResp sellResp w, w.length ≤ 50 →
      ((place_bracket_limit_orders cfg bids asks buyResp sellResp w).2.1).length ≤ 50) ∧
    (∀ maxA inps s, s.window.length ≤ 50 →
      (loopRun cfg maxA inps s).window.length ≤ 50) := by
  refine ⟨windowAppend_length_le, ?_, place_window_length_le cfg, ?_⟩
  · intro w x h50
    have h1 : (w ++ [x]).length - 50 = 1 := by simp [h50]
    unfold windowAppend
    rw [h1, List.drop_append_of_le_length (by omega), List.drop_one]
  · intro maxA inps s
    induction inps generalizing s with
    | nil => exact fun h => h
    | cons inp rest ih =>
      intro h
      unfold loopRun
      split_ifs with hlt
      · exact ih _ (loopCycle_window_le cfg inp s h)
      · exact h

/-- Witness for C9: appending to a full window of 50 ones evicts exactly
the oldest entry, and the result still holds 50 entries. -/
theorem C9_witness :
    windowAppend (List.replicate 50 (1 : ℝ)) 2 =
      (List.replicate 50 (1 : ℝ)).tail ++ [2] ∧
    (windowAppend (List.replicate 50 (1 : ℝ)) 2).length ≤ 50 :=
  ⟨(C9_window_capacity cfg3).2.1 _ 2 (by simp),
    (C9_window_capacity cfg3).1 _ 2⟩

end GrvtFarmer
